import Mathlib

/-!
Shallow embedding of `src/esp_detector.py` (yoriiioff/ESP).

The program runs a pretrained detection model over a video file, draws
overlays, writes the processed frames to a temporary silent video, then
invokes an external ffmpeg executable to merge the original audio back in,
falling back to copying the silent file when ffmpeg is absent or fails.

Modelling conventions:
* Machine inference is a black box: each `Frame` carries the list of
  detections (`dets`) the model reports on it, exactly the data the code
  reads off `result.boxes` (class index, confidence, box coordinates).
  Confidences and font scales are rationals; box coordinates, already cast
  with `int(...)` by the code, are integers.
* Drawing (`cv2.rectangle`, `cv2.putText`) appends `Op` values to the
  frame's overlay list; the opaque pixel buffer is the `pixels` field.
* The filesystem is an association list from paths to `FileData`.  The
  input is a `source` (video frames plus an audio track), the temporary
  file written by `cv2.VideoWriter` is a `silent` video, and a successful
  ffmpeg run produces a `muxed` file: the video stream taken from the
  temporary file (the command stream-copies it with the arguments
  `-c:v copy -map 0:v:0`) and the audio stream of the input re-encoded
  with the codec named after `-c:a` (the argument is `aac`).
* Environmental nondeterminism (does the capture open, what does each
  `cap.read` return, does the ffmpeg binary exist, what does
  `subprocess.run` return or raise, does `os.unlink` succeed) is an `Env`
  record; `process_video` is a pure function of it.
* Console `print` and the GUI `log_callback` are modelled uniformly as a
  list of `LogMsg` values, one constructor per distinct message of the
  code; side effects of interest (frame writes, encoder invocation, file
  copies, the unlink attempt) are traced as `Event`s.
* `os.path.dirname`, `os.path.basename` and the two-argument
  `os.path.join` are modelled with POSIX semantics ('/' separator).
* `cv2.VideoWriter` parameters (fourcc, fps, width, height) do not affect
  which bytes end up in which file, so the file model tracks only the
  written frames; the fps/size values read from the capture are kept in
  `Env` as opaque integers.
-/

/-- One detection reported by the model on a frame: class index `cls`,
confidence `conf`, and the `xyxy` box corners (after the code's `int(...)`
casts). -/
structure Det where
  cls : Nat
  conf : ℚ
  x1 : Int
  y1 : Int
  x2 : Int
  y2 : Int
deriving DecidableEq

/-- A drawing operation recorded on a frame: `cv2.rectangle` or
`cv2.putText` with the arguments the code passes. -/
inductive Op where
  | rect (x1 y1 x2 y2 : Int) (color : Int × Int × Int) (thickness : Int)
  | text (label : String) (x y : Int) (font : Nat) (fontScale : ℚ)
      (color : Int × Int × Int) (thickness : Int)
deriving DecidableEq

/-- A video frame: opaque pixel buffer, the detections the model reports
on it, and the overlays drawn so far. -/
structure Frame where
  pixels : Nat
  dets : List Det
  ops : List Op
deriving DecidableEq

/-- Content of a file in the model filesystem. -/
inductive FileData where
  | source (frames : List Frame) (audio : Nat)
  | silent (frames : List Frame)
  | muxed (frames : List Frame) (audioFrom : String) (audioCodec : String)
deriving DecidableEq

/-- The filesystem: an association list from paths to file contents. -/
abbrev FS := List (String × FileData)

/-- Look up a path in the filesystem. -/
def fsGet : FS → String → Option FileData
  | [], _ => none
  | (q, d) :: rest, p => if p = q then some d else fsGet rest p

/-- Remove every entry at a path (`os.unlink`). -/
def fsErase : FS → String → FS
  | [], _ => []
  | (q, d) :: rest, p => if q = p then fsErase rest p else (q, d) :: fsErase rest p

/-- Create or overwrite the file at a path. -/
def fsSet (fs : FS) (p : String) (d : FileData) : FS :=
  (p, d) :: fsErase fs p

/-- `os.path.exists`. -/
def fileExists (fs : FS) (p : String) : Bool :=
  (fsGet fs p).isSome

/-- `shutil.copy2 src dst`: duplicate the content of `src` at `dst`. -/
def copy2 (fs : FS) (src dst : String) : FS :=
  match fsGet fs src with
  | some d => fsSet fs dst d
  | none => fs

/-- The messages the program prints or logs, one constructor per distinct
message in the code (formatted payloads abstracted to their data). -/
inductive LogMsg where
  | loadingModel
  | openError (path : String)
  | processingStart (total : Int)
  | progress (frameCount : Nat)
  | detectedObjects (classes : List String)
  | merging
  | mergeSuccess
  | ffmpegError (stderr : String)
  | ffmpegNotFound
  | mergeException
  | savedWithoutAudio
  | done (output : String)
  | fileNotFound (path : String)
deriving DecidableEq

/-- Traced side effects of a run. -/
inductive Event where
  | wroteFrame (fr : Frame)
  | ranEncoder (cmd : List String)
  | copiedFile (src dst : String)
  | unlinkAttempt (ok : Bool)
deriving DecidableEq

/-- The environment a run of `process_video` interacts with. -/
structure Env where
  /-- `model.names` of the loaded pretrained model, indexed by class id
  (ultralytics guarantees `result.names` of an inference result is the
  same mapping). -/
  modelNames : List String
  /-- Does `cv2.VideoCapture(video_path)` open (`cap.isOpened()`)? -/
  capOpens : Bool
  /-- Successive results of `cap.read()`: `some frame` for a successful
  read, `none` for `ret == False`; after the list is exhausted every
  further read fails. -/
  reads : List (Option Frame)
  /-- `cap.get(cv2.CAP_PROP_FRAME_COUNT)` as the code truncates it. -/
  totalFrames : Int
  fps : Int
  width : Int
  height : Int
  /-- The name handed out by `tempfile.NamedTemporaryFile(suffix='.mp4')`. -/
  tempPath : String
  /-- Does `os.path.exists(ffmpeg_path)` hold? -/
  ffmpegExists : Bool
  /-- Outcome of `subprocess.run(cmd, ...)`: `some rc` for a completed run
  with returncode `rc`, `none` when the invocation raises an exception. -/
  ffmpegRun : Option Int
  /-- `result.stderr` of a completed ffmpeg run. -/
  ffmpegStderr : String
  /-- Does `os.unlink(temp_video_path)` succeed? -/
  unlinkOk : Bool

/- ----------------------------------------------------------------
   os.path modelling (POSIX semantics), over character lists.
   ---------------------------------------------------------------- -/

/-- Portion of the path up to and including the final '/': the `head`
computed by `posixpath.dirname` before trailing-slash stripping. -/
def headPartL (cs : List Char) : List Char :=
  (cs.reverse.dropWhile (fun c => c != '/')).reverse

/-- Strip trailing '/' characters (`head.rstrip('/')`). -/
def stripSlashesR (cs : List Char) : List Char :=
  (cs.reverse.dropWhile (fun c => c == '/')).reverse

/-- Is the string made of '/' characters only? -/
def allSlashes (cs : List Char) : Bool :=
  cs.all (fun c => c == '/')

/-- `posixpath.dirname` on a character list: everything before the final
'/', with trailing slashes stripped unless the head is empty or all
slashes. -/
def dirnameL (cs : List Char) : List Char :=
  if (headPartL cs).isEmpty || allSlashes (headPartL cs) then headPartL cs
  else stripSlashesR (headPartL cs)

/-- `posixpath.basename` on a character list: everything after the final
'/'. -/
def basenameL (cs : List Char) : List Char :=
  (cs.reverse.takeWhile (fun c => c != '/')).reverse

/-- `os.path.dirname`. -/
def pyDirname (p : String) : String := ⟨dirnameL p.data⟩

/-- `os.path.basename`. -/
def pyBasename (p : String) : String := ⟨basenameL p.data⟩

/-- Does the string end with '/'? -/
def endsWithSlash (a : String) : Bool :=
  a.data.reverse.head? = some '/'

/-- Two-argument `os.path.join` with POSIX semantics: an absolute second
component replaces the first; otherwise a '/' is inserted unless the
first component is empty or already ends with '/'. -/
def pyJoin (a b : String) : String :=
  if b.data.head? = some '/' then b
  else if a = "" || endsWithSlash a then a ++ b
  else a ++ "/" ++ b

/-- Python `str.strip()` with no argument: remove leading and trailing
whitespace. -/
def pyStrip (s : String) : String :=
  ⟨((s.data.dropWhile Char.isWhitespace).reverse.dropWhile Char.isWhitespace).reverse⟩

/-- The code's `video_dir = os.path.dirname(video_path) or "."`. -/
def videoDirOf (video_path : String) : String :=
  if pyDirname video_path = "" then "." else pyDirname video_path

/-- The output path both front-ends compute:
`os.path.join(video_dir, "out.mp4")`. -/
def outPathFor (video_path : String) : String :=
  pyJoin (videoDirOf video_path) "out.mp4"

/- ----------------------------------------------------------------
   detect_and_draw_esp
   ---------------------------------------------------------------- -/

/-- Python `str.title()` for the ASCII class names: uppercase a letter
that does not follow a letter, lowercase one that does. -/
def pyTitleAux : Bool → List Char → List Char
  | _, [] => []
  | prevAlpha, c :: rest =>
      (if c.isAlpha then (if prevAlpha then c.toLower else c.toUpper) else c)
        :: pyTitleAux c.isAlpha rest

/-- Python `str.title()`. -/
def pyTitle (s : String) : String := ⟨pyTitleAux false s.data⟩

/-- The `target_classes` dictionary: every model class name mapped to
`class_name.replace('_', ' ').title()`. -/
def targetClasses (names : List String) : List (String × String) :=
  names.map (fun n => (n, pyTitle (n.replace "_" " ")))

/-- Python `f"{conf:.2f}"` on a rational: the value rounded to hundredths
and rendered with two digits after the point. -/
def fmt2 (q : ℚ) : String :=
  let n : ℤ := round (q * 100)
  let a : ℕ := n.natAbs
  (if n < 0 then "-" else "") ++ toString (a / 100) ++ "."
    ++ (if a % 100 < 10 then "0" else "") ++ toString (a % 100)

/-- The entry appended to `detected_classes` for one box:
`f"{class_name} ({conf:.2f})"`. -/
def fmtDet (names : List String) (d : Det) : String :=
  names.getD d.cls "" ++ " (" ++ fmt2 d.conf ++ ")"

/-- The drawing operations one box contributes: when its class name is a
key of `target_classes` and its confidence exceeds the 0.5 threshold, the
red rectangle and the label text; otherwise nothing. -/
def detectOpsFor (names : List String) (d : Det) : List Op :=
  match (targetClasses names).lookup (names.getD d.cls "") with
  | some label =>
      if (0.5 : ℚ) < d.conf then
        [Op.rect d.x1 d.y1 d.x2 d.y2 (0, 0, 255) 2,
         Op.text label d.x1 (d.y1 - 10) 0 (0.9 : ℚ) (0, 0, 255) 2]
      else []
  | none => []

/-- Pure core of `detect_and_draw_esp`: iterates over the boxes of the
inference result, appending a formatted entry to `detected_classes` for
every box and drawing on the frame the boxes above the confidence
threshold; returns the frame and the detected-class list. -/
def detect_and_draw_esp (names : List String) (fr : Frame) : Frame × List String :=
  ({ fr with ops := fr.ops ++ fr.dets.flatMap (detectOpsFor names) },
   fr.dets.map (fmtDet names))

/-- `detect_and_draw_esp` as Python executes it: the frame argument is a
reference `r` into a store of frame objects, the drawing mutates the
object in place, and the function returns the same reference. -/
def detectAndDrawInPlace (names : List String) (σ : List Frame) (r : Nat) :
    List Frame × Nat × List String :=
  match σ[r]? with
  | some fr =>
      let res := detect_and_draw_esp names fr
      (σ.set r res.1, r, res.2)
  | none => (σ, r, [])

/-- The frame written for one read frame: the first component of
`detect_and_draw_esp`. -/
def processFrame (names : List String) (fr : Frame) : Frame :=
  (detect_and_draw_esp names fr).1

/- ----------------------------------------------------------------
   process_video
   ---------------------------------------------------------------- -/

/-- The frames the `while` loop obtains: successive `cap.read()` results
up to but not including the first failed read. -/
def readFrames : List (Option Frame) → List Frame
  | [] => []
  | none :: _ => []
  | some fr :: rest => fr :: readFrames rest

/-- The processed frames of a run, in read order. -/
def processedOf (env : Env) : List Frame :=
  (readFrames env.reads).map (processFrame env.modelNames)

/-- Progress messages of the loop: every 30th frame, the progress line
and, when the current frame's detected-class list is nonempty, its first
five entries. -/
def progressLogs (names : List String) (frames : List Frame) : List LogMsg :=
  frames.enum.flatMap (fun pr =>
    if (pr.1 + 1) % 30 = 0 then
      LogMsg.progress (pr.1 + 1)
        :: (if (detect_and_draw_esp names pr.2).2 = [] then []
            else [LogMsg.detectedObjects ((detect_and_draw_esp names pr.2).2.take 5)])
    else [])

/-- The hard-coded `ffmpeg_path` of the code. -/
def ffmpegPath : String :=
  "N:\\ai maked ai\\ffmpeg-8.0.1-essentials_build\\bin\\ffmpeg.exe"

/-- The argument list the code builds for ffmpeg. -/
def ffmpegCmd (temp_video_path video_path output_path : String) : List String :=
  [ffmpegPath, "-i", temp_video_path, "-i", video_path,
   "-c:v", "copy", "-c:a", "aac", "-map", "0:v:0", "-map", "1:a:0",
   "-shortest", output_path, "-y"]

/-- The audio-merging stage: when the ffmpeg binary exists it is run on
`ffmpegCmd`; a zero returncode leaves ffmpeg's output at `output_path`
(video stream copied from the temporary file, input audio re-encoded to
aac), a non-zero returncode or an exception falls back to copying the
silent temporary file, and a missing binary copies it directly.  Returns
the filesystem, the stage's log messages, and its events. -/
def mergeStep (env : Env) (processed : List Frame) (fs1 : FS)
    (video_path output_path : String) : FS × List LogMsg × List Event :=
  if env.ffmpegExists then
    match env.ffmpegRun with
    | some rc =>
        if rc = 0 then
          (fsSet fs1 output_path (FileData.muxed processed video_path "aac"),
           [LogMsg.mergeSuccess],
           [Event.ranEncoder (ffmpegCmd env.tempPath video_path output_path)])
        else
          (copy2 fs1 env.tempPath output_path,
           [LogMsg.ffmpegError env.ffmpegStderr],
           [Event.ranEncoder (ffmpegCmd env.tempPath video_path output_path),
            Event.copiedFile env.tempPath output_path])
    | none =>
        (copy2 fs1 env.tempPath output_path,
         [LogMsg.mergeException, LogMsg.savedWithoutAudio],
         [Event.ranEncoder (ffmpegCmd env.tempPath video_path output_path),
          Event.copiedFile env.tempPath output_path])
  else
    (copy2 fs1 env.tempPath output_path,
     [LogMsg.ffmpegNotFound],
     [Event.copiedFile env.tempPath output_path])

/-- The final `os.unlink(temp_video_path)` under `try/except: pass`. -/
def unlinkStep (env : Env) (fs2 : FS) : FS :=
  if env.unlinkOk then fsErase fs2 env.tempPath else fs2

/-- Result of a `process_video` run. -/
structure PVResult where
  fs : FS
  log : List LogMsg
  events : List Event

/-- `process_video`: load the model, open the capture (early return on
failure), write every successfully read frame's processed version to the
temporary silent file, merge audio with ffmpeg (with the file-copy
fallback), attempt to delete the temporary file, and report completion. -/
def process_video (env : Env) (fs : FS) (video_path output_path : String) : PVResult :=
  if env.capOpens then
    let frames := readFrames env.reads
    let processed := frames.map (processFrame env.modelNames)
    let fs1 := fsSet fs env.tempPath (FileData.silent processed)
    let m := mergeStep env processed fs1 video_path output_path
    { fs := unlinkStep env m.1
      log := [LogMsg.loadingModel, LogMsg.processingStart env.totalFrames]
        ++ progressLogs env.modelNames frames
        ++ [LogMsg.merging] ++ m.2.1 ++ [LogMsg.done output_path]
      events := processed.map Event.wroteFrame ++ m.2.2
        ++ [Event.unlinkAttempt env.unlinkOk] }
  else
    { fs := fs, log := [LogMsg.loadingModel, LogMsg.openError video_path], events := [] }

/-- Result of a `main` run: final filesystem, console output, traced
events, and the `(input, output)` pair passed to `process_video` when it
was called. -/
structure RunResult where
  fs : FS
  log : List LogMsg
  events : List Event
  invoked : Option (String × String)

/-- The program's `main` (the name `main` is reserved in Lean): with
exactly one positional argument (`len(sys.argv) == 2`) run the console
variant — strip the argument, skip with a message when the file does not
exist, otherwise process into `os.path.join(dirname or ".", "out.mp4")`;
any other argument count starts the GUI main loop instead (no filesystem
effect here). -/
def mainEntry (env : Env) (fs : FS) (argv : List String) : RunResult :=
  if argv.length = 2 then
    let video_path := pyStrip (argv.getD 1 "")
    if fileExists fs video_path then
      let output_path := outPathFor video_path
      let r := process_video env fs video_path output_path
      { fs := r.fs
        log := r.log
        events := r.events
        invoked := some (video_path, output_path) }
    else
      { fs := fs, log := [LogMsg.fileNotFound video_path], events := [], invoked := none }
  else
    { fs := fs, log := [], events := [], invoked := none }

/- ----------------------------------------------------------------
   GUI state machine
   ---------------------------------------------------------------- -/

/-- The GUI effects a handler can trigger besides updating widget
state. -/
inductive GuiEffect where
  | errorDialog (msg : String)
  | spawnThread
deriving DecidableEq

/-- The mutable state of `ESPDetectorGUI` relevant to the handlers:
selected input, computed output, the `processing` flag, the enabled
state of the two buttons, the progress bar and the status line. -/
structure GuiState where
  input_file : String
  output_file : String
  processing : Bool
  processBtnEnabled : Bool
  openOutputBtnEnabled : Bool
  progress : ℚ
  status : String
deriving DecidableEq

namespace ESPDetectorGUI

/-- `browse_file` after the dialog returns `filename`: a non-empty choice
records the input and derives the output path; cancelling changes
nothing. -/
def browse_file (st : GuiState) (filename : String) : GuiState :=
  if filename = "" then st
  else { st with input_file := filename, output_file := outPathFor filename }

/-- `start_processing`: refuse with a dialog when no file is selected or
the selected file is missing, return silently when a run is already in
progress, otherwise set the flag, disable the button, reset progress and
status, and spawn the worker thread. -/
def start_processing (fs : FS) (st : GuiState) : GuiState × List GuiEffect :=
  if st.input_file = "" then
    (st, [GuiEffect.errorDialog "Пожалуйста, выберите видео файл!"])
  else if fileExists fs st.input_file = false then
    (st, [GuiEffect.errorDialog ("Файл не найден: " ++ st.input_file)])
  else if st.processing then
    (st, [])
  else
    ({ st with
        processing := true
        processBtnEnabled := false
        progress := 0
        status := "Обработка видео..." },
     [GuiEffect.spawnThread])

/-- `processing_finished`: clear the flag, re-enable the process button,
fill the progress bar, enable the open-output button. -/
def processing_finished (st : GuiState) : GuiState :=
  { st with
      processing := false
      processBtnEnabled := true
      progress := 1
      status := "Обработка завершена!"
      openOutputBtnEnabled := true }

/-- `processing_error`: clear the flag, re-enable the process button,
set the error status. -/
def processing_error (st : GuiState) : GuiState :=
  { st with
      processing := false
      processBtnEnabled := true
      status := "Ошибка обработки" }

end ESPDetectorGUI

/- ----------------------------------------------------------------
   ffmpeg command inspection (for the re-mux claim)
   ---------------------------------------------------------------- -/

/-- The value following the first occurrence of a flag in an argument
list. -/
def argAfterFlag (flag : String) : List String → Option String
  | [] => none
  | [_] => none
  | a :: b :: rest => if a = flag then some b else argAfterFlag flag (b :: rest)

/-- Modelled from the spec's glossary: a command performs a re-mux —
"combining a re-encoded video stream with an original audio stream into
one container without re-encoding audio" — only if it stream-copies the
audio, i.e. the audio-codec argument after `-c:a` is `copy`. -/
def specRemuxCmd (cmd : List String) : Prop :=
  argAfterFlag "-c:a" cmd = some "copy"

/- ----------------------------------------------------------------
   Helper lemmas: filesystem
   ---------------------------------------------------------------- -/

theorem fsGet_fsErase_self (fs : FS) (p : String) : fsGet (fsErase fs p) p = none := by
  induction fs with
  | nil => rfl
  | cons e rest ih =>
      obtain ⟨q, d⟩ := e
      by_cases h : q = p
      · simpa [fsErase, h] using ih
      · simp [fsErase, fsGet, h, Ne.symm h, ih]

theorem fsGet_fsErase_ne (fs : FS) (p q : String) (h : q ≠ p) :
    fsGet (fsErase fs p) q = fsGet fs q := by
  induction fs with
  | nil => rfl
  | cons e rest ih =>
      obtain ⟨k, d⟩ := e
      by_cases hk : k = p
      · subst hk
        simp [fsErase, fsGet, h, ih]
      · by_cases hq : q = k <;> simp [fsErase, fsGet, hk, hq, ih]

theorem fsGet_fsSet_self (fs : FS) (p : String) (d : FileData) :
    fsGet (fsSet fs p d) p = some d := by
  simp [fsSet, fsGet]

theorem fsGet_fsSet_ne (fs : FS) (p q : String) (d : FileData) (h : q ≠ p) :
    fsGet (fsSet fs p d) q = fsGet fs q := by
  simp [fsSet, fsGet, h, fsGet_fsErase_ne fs p q h]

/- ----------------------------------------------------------------
   Helper lemmas: character lists and paths
   ---------------------------------------------------------------- -/

theorem dropWhile_append_all {p : Char → Bool} {l1 l2 : List Char}
    (h : ∀ c ∈ l1, p c = true) :
    (l1 ++ l2).dropWhile p = l2.dropWhile p := by
  induction l1 with
  | nil => rfl
  | cons a t ih =>
      have ha : p a = true := h a (List.mem_cons_self a t)
      simp only [List.cons_append, List.dropWhile_cons, ha, if_pos]
      exact ih (fun c hc => h c (List.mem_cons_of_mem a hc))

theorem takeWhile_append_all {p : Char → Bool} {l1 l2 : List Char}
    (h : ∀ c ∈ l1, p c = true) :
    (l1 ++ l2).takeWhile p = l1 ++ l2.takeWhile p := by
  induction l1 with
  | nil => rfl
  | cons a t ih =>
      have ha : p a = true := h a (List.mem_cons_self a t)
      simp only [List.cons_append, List.takeWhile_cons, ha, if_pos]
      rw [ih (fun c hc => h c (List.mem_cons_of_mem a hc))]

theorem head_dropWhile_false {p : Char → Bool} (l : List Char) (c : Char) (t : List Char)
    (h : l.dropWhile p = c :: t) : p c = false := by
  induction l with
  | nil => cases h
  | cons a l ih =>
      rw [List.dropWhile_cons] at h
      by_cases ha : p a = true
      · exact ih (by simpa [ha] using h)
      · rw [if_neg ha] at h
        cases h
        simpa using ha

theorem headPartL_sep (d b : List Char) (hb : ∀ c ∈ b, (c != '/') = true) :
    headPartL (d ++ '/' :: b) = d ++ ['/'] := by
  unfold headPartL
  rw [List.reverse_append, List.reverse_cons]
  rw [List.append_assoc]
  rw [dropWhile_append_all (fun c hc => hb c (List.mem_reverse.mp hc))]
  simp

theorem headPartL_nosep (d b : List Char) (hd : allSlashes d = true)
    (hdne : d ≠ []) (hb : ∀ c ∈ b, (c != '/') = true) :
    headPartL (d ++ b) = d := by
  unfold headPartL
  rw [List.reverse_append]
  rw [dropWhile_append_all (fun c hc => hb c (List.mem_reverse.mp hc))]
  obtain ⟨c, t, hct⟩ : ∃ c t, d.reverse = c :: t := by
    rcases hr : d.reverse with _ | ⟨c, t⟩
    · exact absurd (by simpa using congrArg List.reverse hr) hdne
    · exact ⟨c, t, rfl⟩
  have hc : (c == '/') = true := by
    have : c ∈ d := by
      rw [← List.mem_reverse, hct]; exact List.mem_cons_self c t
    exact List.all_eq_true.mp hd c this
  simp only [beq_iff_eq] at hc
  rw [hct, List.dropWhile_cons, if_neg (by simp [hc]), ← hct, List.reverse_reverse]

theorem basenameL_sep (d b : List Char) (hb : ∀ c ∈ b, (c != '/') = true) :
    basenameL (d ++ '/' :: b) = b := by
  unfold basenameL
  rw [List.reverse_append, List.reverse_cons, List.append_assoc]
  rw [takeWhile_append_all (fun c hc => hb c (List.mem_reverse.mp hc))]
  simp

theorem basenameL_nosep (d b : List Char) (hd : allSlashes d = true)
    (hdne : d ≠ []) (hb : ∀ c ∈ b, (c != '/') = true) :
    basenameL (d ++ b) = b := by
  unfold basenameL
  rw [List.reverse_append]
  rw [takeWhile_append_all (fun c hc => hb c (List.mem_reverse.mp hc))]
  obtain ⟨c, t, hct⟩ : ∃ c t, d.reverse = c :: t := by
    rcases hr : d.reverse with _ | ⟨c, t⟩
    · exact absurd (by simpa using congrArg List.reverse hr) hdne
    · exact ⟨c, t, rfl⟩
  have hc : (c == '/') = true := by
    have : c ∈ d := by
      rw [← List.mem_reverse, hct]; exact List.mem_cons_self c t
    exact List.all_eq_true.mp hd c this
  simp only [beq_iff_eq] at hc
  rw [hct, List.takeWhile_cons]
  simp [hc]

theorem dirnameL_sep (d b : List Char)
    (hlast : ∃ c t, d.reverse = c :: t ∧ (c == '/') = false)
    (hb : ∀ c ∈ b, (c != '/') = true) :
    dirnameL (d ++ '/' :: b) = d := by
  obtain ⟨c, t, hct, hc⟩ := hlast
  unfold dirnameL
  rw [headPartL_sep d b hb]
  have hmem : c ∈ d := by
    rw [← List.mem_reverse, hct]; exact List.mem_cons_self c t
  have hne : (d ++ ['/']).isEmpty = false := by simp
  have hnall : allSlashes (d ++ ['/']) = false := by
    unfold allSlashes
    simp only [List.all_append, Bool.and_eq_false_iff]
    left
    exact List.all_eq_false.mpr ⟨c, hmem, by simp [hc]⟩
  rw [hne, hnall]
  simp only [Bool.or_self, if_neg Bool.false_ne_true]
  unfold stripSlashesR
  rw [List.reverse_append]
  simp only [List.reverse_cons, List.reverse_nil, List.nil_append, List.singleton_append]
  rw [List.dropWhile_cons, if_pos (by simp), hct, List.dropWhile_cons, if_neg (by simp [hc])]
  rw [← hct, List.reverse_reverse]

theorem dirnameL_nosep (d b : List Char) (hd : allSlashes d = true) (hdne : d ≠ [])
    (hb : ∀ c ∈ b, (c != '/') = true) :
    dirnameL (d ++ b) = d := by
  unfold dirnameL
  rw [headPartL_nosep d b hd hdne hb]
  have hne : d.isEmpty = false := by simpa [List.isEmpty_iff] using hdne
  rw [hne, hd]
  simp

theorem dirnameL_shape (cs : List Char) :
    dirnameL cs = [] ∨ allSlashes (dirnameL cs) = true ∨
      ∃ c t, (dirnameL cs).reverse = c :: t ∧ (c == '/') = false := by
  unfold dirnameL
  by_cases h : (headPartL cs).isEmpty || allSlashes (headPartL cs)
  · rw [if_pos h]
    rcases Bool.or_eq_true_iff.mp h with h1 | h2
    · exact Or.inl (List.isEmpty_iff.mp h1)
    · exact Or.inr (Or.inl h2)
  · rw [if_neg h]
    rcases hr : (stripSlashesR (headPartL cs)).reverse with _ | ⟨c, t⟩
    · left
      simpa using congrArg List.reverse hr
    · right; right
      refine ⟨c, t, rfl, ?_⟩
      have : (headPartL cs).reverse.dropWhile (fun c => c == '/') = c :: t := by
        unfold stripSlashesR at hr
        simpa using hr
      exact head_dropWhile_false _ c t this

theorem basenameL_out_nochar : ∀ c ∈ "out.mp4".data, (c != '/') = true := by decide

theorem outPathFor_parts (p : String) :
    pyBasename (outPathFor p) = "out.mp4" ∧ pyDirname (outPathFor p) = videoDirOf p := by
  by_cases hd0 : pyDirname p = ""
  · have hvd : videoDirOf p = "." := by simp [videoDirOf, hd0]
    rw [outPathFor, hvd]
    exact ⟨rfl, rfl⟩
  · have hvd : videoDirOf p = ⟨dirnameL p.data⟩ := by
      rw [videoDirOf, if_neg hd0]; rfl
    have hdne : dirnameL p.data ≠ [] := by
      intro h
      exact hd0 (by rw [show pyDirname p = ⟨dirnameL p.data⟩ from rfl, h])
    have hdstr : pyDirname p = ⟨dirnameL p.data⟩ := rfl
    rcases dirnameL_shape p.data with h0 | hall | ⟨c, t, hct, hc⟩
    · exact absurd h0 hdne
    · -- the directory part is a nonempty run of slashes, so the join
      -- appends directly
      obtain ⟨c, t, hct⟩ : ∃ c t, (dirnameL p.data).reverse = c :: t := by
        rcases hr : (dirnameL p.data).reverse with _ | ⟨c, t⟩
        · exact absurd (by simpa using congrArg List.reverse hr) hdne
        · exact ⟨c, t, rfl⟩
      have hcmem : c ∈ dirnameL p.data := by
        rw [← List.mem_reverse, hct]; exact List.mem_cons_self c t
      have hcslash : c = '/' := by
        simpa using List.all_eq_true.mp hall c hcmem
      have hends : endsWithSlash ⟨dirnameL p.data⟩ = true := by
        simp [endsWithSlash, hct, hcslash]
      have hjoin : outPathFor p = ⟨dirnameL p.data⟩ ++ "out.mp4" := by
        rw [outPathFor, hvd, pyJoin, if_neg (by decide)]
        rw [if_pos (by simp [hends])]
      have hdata : ((⟨dirnameL p.data⟩ : String) ++ "out.mp4").data
          = dirnameL p.data ++ "out.mp4".data := String.data_append _ _
      constructor
      · rw [hjoin, pyBasename, hdata,
          basenameL_nosep _ _ hall hdne basenameL_out_nochar]
      · rw [hjoin, pyDirname, hdata,
          dirnameL_nosep _ _ hall hdne basenameL_out_nochar, hvd]
    · -- the directory part does not end in a slash, so the join inserts one
      have hends : endsWithSlash ⟨dirnameL p.data⟩ = false := by
        simp only [endsWithSlash, hct]
        simp only [List.head?_cons, decide_eq_false_iff_not]
        intro h
        cases h
        simp at hc
      have hne' : ¬((⟨dirnameL p.data⟩ : String) = "") := by
        rw [← hdstr]; exact hd0
      have hjoin : outPathFor p = ⟨dirnameL p.data⟩ ++ "/" ++ "out.mp4" := by
        rw [outPathFor, hvd, pyJoin, if_neg (by decide)]
        rw [if_neg (by simp [hends, hne'])]
      have hdata : ((⟨dirnameL p.data⟩ : String) ++ "/" ++ "out.mp4").data
          = dirnameL p.data ++ '/' :: "out.mp4".data := by
        rw [String.data_append, String.data_append, List.append_assoc]
        rfl
      constructor
      · rw [hjoin, pyBasename, hdata,
          basenameL_sep _ _ basenameL_out_nochar]
      · rw [hjoin, pyDirname, hdata,
          dirnameL_sep _ _ ⟨c, t, hct, hc⟩ basenameL_out_nochar, hvd]

/- ----------------------------------------------------------------
   Helper lemmas: detection
   ---------------------------------------------------------------- -/

theorem getD_mem_of_lt (names : List String) (i : Nat) (h : i < names.length) :
    names.getD i "" ∈ names := by
  rw [List.getD_eq_getElem?_getD, List.getElem?_eq_getElem h]
  exact List.getElem_mem h

theorem lookup_targetClasses (names : List String) (n : String) (hn : n ∈ names) :
    (targetClasses names).lookup n = some (pyTitle (n.replace "_" " ")) := by
  induction names with
  | nil => cases hn
  | cons a l ih =>
      by_cases hna : n = a
      · subst hna
        simp [targetClasses, List.lookup_cons]
      · have hbeq : (n == a) = false := beq_eq_false_iff_ne.mpr hna
        cases hn with
        | head => exact absurd rfl hna
        | tail _ hn2 =>
            simp only [targetClasses, List.map_cons, List.lookup_cons, hbeq]
            exact ih hn2

theorem detectOpsFor_of_lt (names : List String) (d : Det)
    (h : d.cls < names.length) :
    detectOpsFor names d =
      if (0.5 : ℚ) < d.conf then
        [Op.rect d.x1 d.y1 d.x2 d.y2 (0, 0, 255) 2,
         Op.text (pyTitle ((names.getD d.cls "").replace "_" " ")) d.x1 (d.y1 - 10)
           0 (0.9 : ℚ) (0, 0, 255) 2]
      else [] := by
  unfold detectOpsFor
  rw [lookup_targetClasses names _ (getD_mem_of_lt names d.cls h)]

theorem detectOps_flatMap (names : List String) (ds : List Det)
    (h : ∀ d ∈ ds, d.cls < names.length) :
    ds.flatMap (detectOpsFor names) =
      ds.flatMap (fun d =>
        if (0.5 : ℚ) < d.conf then
          [Op.rect d.x1 d.y1 d.x2 d.y2 (0, 0, 255) 2,
           Op.text (pyTitle ((names.getD d.cls "").replace "_" " ")) d.x1 (d.y1 - 10)
             0 (0.9 : ℚ) (0, 0, 255) 2]
        else []) := by
  induction ds with
  | nil => rfl
  | cons d t ih =>
      simp only [List.flatMap_cons]
      rw [detectOpsFor_of_lt names d (h d (List.mem_cons_self d t)),
        ih (fun x hx => h x (List.mem_cons_of_mem d hx))]

/- ----------------------------------------------------------------
   Helper lemmas: the frame loop and process_video
   ---------------------------------------------------------------- -/

theorem readFrames_stops (pre : List Frame) (post : List (Option Frame)) :
    readFrames (pre.map Option.some ++ Option.none :: post) = pre := by
  induction pre with
  | nil => rfl
  | cons fr t ih => simp [readFrames, ih]

theorem mergeStep_notfound (env : Env) (processed : List Frame) (fs1 : FS)
    (vp op : String) (hff : env.ffmpegExists = false) :
    mergeStep env processed fs1 vp op =
      (copy2 fs1 env.tempPath op, [LogMsg.ffmpegNotFound],
       [Event.copiedFile env.tempPath op]) := by
  simp [mergeStep, hff]

theorem mergeStep_success (env : Env) (processed : List Frame) (fs1 : FS)
    (vp op : String) (hff : env.ffmpegExists = true)
    (hrun : env.ffmpegRun = some 0) :
    mergeStep env processed fs1 vp op =
      (fsSet fs1 op (FileData.muxed processed vp "aac"), [LogMsg.mergeSuccess],
       [Event.ranEncoder (ffmpegCmd env.tempPath vp op)]) := by
  simp [mergeStep, hff, hrun]

theorem mergeStep_fail (env : Env) (processed : List Frame) (fs1 : FS)
    (vp op : String) (rc : Int) (hff : env.ffmpegExists = true)
    (hrun : env.ffmpegRun = some rc) (hrc : rc ≠ 0) :
    mergeStep env processed fs1 vp op =
      (copy2 fs1 env.tempPath op, [LogMsg.ffmpegError env.ffmpegStderr],
       [Event.ranEncoder (ffmpegCmd env.tempPath vp op),
        Event.copiedFile env.tempPath op]) := by
  simp [mergeStep, hff, hrun, hrc]

theorem mergeStep_exc (env : Env) (processed : List Frame) (fs1 : FS)
    (vp op : String) (hff : env.ffmpegExists = true)
    (hrun : env.ffmpegRun = none) :
    mergeStep env processed fs1 vp op =
      (copy2 fs1 env.tempPath op, [LogMsg.mergeException, LogMsg.savedWithoutAudio],
       [Event.ranEncoder (ffmpegCmd env.tempPath vp op),
        Event.copiedFile env.tempPath op]) := by
  simp [mergeStep, hff, hrun]

theorem mergeStep_fs_cases (env : Env) (processed : List Frame) (fs1 : FS)
    (vp op : String) :
    (mergeStep env processed fs1 vp op).1 =
        fsSet fs1 op (FileData.muxed processed vp "aac")
    ∨ (mergeStep env processed fs1 vp op).1 = copy2 fs1 env.tempPath op := by
  by_cases hff : env.ffmpegExists
  · rcases hrun : env.ffmpegRun with _ | rc
    · right; rw [mergeStep_exc env processed fs1 vp op hff hrun]
    · by_cases hrc : rc = 0
      · subst hrc
        left; rw [mergeStep_success env processed fs1 vp op hff hrun]
      · right; rw [mergeStep_fail env processed fs1 vp op rc hff hrun hrc]
  · right
    rw [mergeStep_notfound env processed fs1 vp op (by simpa using hff)]

theorem process_video_writesOnly (env : Env) (fs : FS) (vp op q : String)
    (hq1 : q ≠ env.tempPath) (hq2 : q ≠ op) :
    fsGet (process_video env fs vp op).fs q = fsGet fs q := by
  unfold process_video
  by_cases hcap : env.capOpens
  · simp only [hcap, if_true]
    have hfs1 : fsGet (fsSet fs env.tempPath
        (FileData.silent ((readFrames env.reads).map (processFrame env.modelNames)))) q
        = fsGet fs q := fsGet_fsSet_ne _ _ _ _ hq1
    have hcopy : ∀ fs1 : FS, fsGet fs1 q = fsGet fs q →
        fsGet (copy2 fs1 env.tempPath op) q = fsGet fs q := by
      intro fs1 h1
      unfold copy2
      rcases fsGet fs1 env.tempPath with _ | d
      · exact h1
      · rw [fsGet_fsSet_ne _ _ _ _ hq2]; exact h1
    have hunlink : ∀ fs2 : FS, fsGet fs2 q = fsGet fs q →
        fsGet (unlinkStep env fs2) q = fsGet fs q := by
      intro fs2 h2
      unfold unlinkStep
      by_cases hu : env.unlinkOk
      · rw [if_pos hu, fsGet_fsErase_ne _ _ _ hq1]; exact h2
      · rw [if_neg hu]; exact h2
    apply hunlink
    rcases mergeStep_fs_cases env
        ((readFrames env.reads).map (processFrame env.modelNames))
        (fsSet fs env.tempPath
          (FileData.silent ((readFrames env.reads).map (processFrame env.modelNames))))
        vp op with hm | hm
    · rw [hm, fsGet_fsSet_ne _ _ _ _ hq2]
      exact hfs1
    · rw [hm]
      exact hcopy _ hfs1
  · simp [hcap]

theorem copy2_known (fs : FS) (src dst : String) (d : FileData)
    (h : fsGet fs src = some d) : copy2 fs src dst = fsSet fs dst d := by
  simp [copy2, h]

theorem fsGet_unlinkStep_ne (env : Env) (fs2 : FS) (q : String)
    (hq : q ≠ env.tempPath) : fsGet (unlinkStep env fs2) q = fsGet fs2 q := by
  unfold unlinkStep
  by_cases hu : env.unlinkOk
  · rw [if_pos hu, fsGet_fsErase_ne _ _ _ hq]
  · rw [if_neg hu]

theorem fsGet_unlinkStep_temp (env : Env) (fs2 : FS) (hu : env.unlinkOk = true) :
    fsGet (unlinkStep env fs2) env.tempPath = none := by
  unfold unlinkStep
  rw [if_pos hu, fsGet_fsErase_self]

theorem process_video_open (env : Env) (fs : FS) (vp op : String)
    (hcap : env.capOpens = true) :
    process_video env fs vp op =
      { fs := unlinkStep env
          (mergeStep env (processedOf env)
            (fsSet fs env.tempPath (FileData.silent (processedOf env))) vp op).1
        log := [LogMsg.loadingModel, LogMsg.processingStart env.totalFrames]
          ++ progressLogs env.modelNames (readFrames env.reads)
          ++ [LogMsg.merging]
          ++ (mergeStep env (processedOf env)
              (fsSet fs env.tempPath (FileData.silent (processedOf env))) vp op).2.1
          ++ [LogMsg.done op]
        events := (processedOf env).map Event.wroteFrame
          ++ (mergeStep env (processedOf env)
              (fsSet fs env.tempPath (FileData.silent (processedOf env))) vp op).2.2
          ++ [Event.unlinkAttempt env.unlinkOk] } := by
  rw [process_video, if_pos hcap]
  rfl

theorem process_video_output_exists (env : Env) (fs : FS) (vp op : String)
    (hcap : env.capOpens = true) (htmp : env.tempPath ≠ op) :
    fileExists (process_video env fs vp op).fs op = true := by
  rw [process_video_open env fs vp op hcap]
  unfold fileExists
  rw [fsGet_unlinkStep_ne env _ op (Ne.symm htmp)]
  have hfs1 : fsGet (fsSet fs env.tempPath (FileData.silent (processedOf env)))
      env.tempPath = some (FileData.silent (processedOf env)) := fsGet_fsSet_self _ _ _
  rcases mergeStep_fs_cases env (processedOf env)
      (fsSet fs env.tempPath (FileData.silent (processedOf env))) vp op with hm | hm
  · rw [hm, fsGet_fsSet_self]
    rfl
  · rw [hm, copy2_known _ _ _ _ hfs1, fsGet_fsSet_self]
    rfl

theorem mergeStep_events_cases (env : Env) (processed : List Frame) (fs1 : FS)
    (vp op : String) :
    ∀ e ∈ (mergeStep env processed fs1 vp op).2.2,
      (∃ cmd, e = Event.ranEncoder cmd) ∨ (∃ s d, e = Event.copiedFile s d) := by
  intro e he
  by_cases hff : env.ffmpegExists
  · rcases hrun : env.ffmpegRun with _ | rc
    · rw [mergeStep_exc env processed fs1 vp op hff hrun] at he
      simp only [List.mem_cons, List.not_mem_nil, or_false] at he
      rcases he with rfl | rfl
      · exact Or.inl ⟨_, rfl⟩
      · exact Or.inr ⟨_, _, rfl⟩
    · by_cases hrc : rc = 0
      · subst hrc
        rw [mergeStep_success env processed fs1 vp op hff hrun] at he
        simp only [List.mem_cons, List.not_mem_nil, or_false] at he
        subst he
        exact Or.inl ⟨_, rfl⟩
      · rw [mergeStep_fail env processed fs1 vp op rc hff hrun hrc] at he
        simp only [List.mem_cons, List.not_mem_nil, or_false] at he
        rcases he with rfl | rfl
        · exact Or.inl ⟨_, rfl⟩
        · exact Or.inr ⟨_, _, rfl⟩
  · rw [mergeStep_notfound env processed fs1 vp op (by simpa using hff)] at he
    simp only [List.mem_cons, List.not_mem_nil, or_false] at he
    subst he
    exact Or.inr ⟨_, _, rfl⟩

theorem mergeStep_temp_isSome (env : Env) (processed : List Frame) (fs1 : FS)
    (vp op : String) (h : (fsGet fs1 env.tempPath).isSome = true) :
    (fsGet (mergeStep env processed fs1 vp op).1 env.tempPath).isSome = true := by
  rcases mergeStep_fs_cases env processed fs1 vp op with hm | hm
  · rw [hm]
    by_cases hq : env.tempPath = op
    · rw [hq, fsGet_fsSet_self]; rfl
    · rw [fsGet_fsSet_ne _ _ _ _ hq]; exact h
  · rw [hm]
    rcases hsrc : fsGet fs1 env.tempPath with _ | d
    · rw [hsrc] at h; simp at h
    · rw [copy2_known _ _ _ _ hsrc]
      by_cases hq : env.tempPath = op
      · rw [hq, fsGet_fsSet_self]; rfl
      · rw [fsGet_fsSet_ne _ _ _ _ hq, hsrc]; rfl

/- ----------------------------------------------------------------
   Concrete fixtures used by witnesses and counterexamples
   ---------------------------------------------------------------- -/

/-- A detection above the 0.5 confidence threshold. -/
def sampleDetHigh : Det := ⟨0, 87/100, 10, 20, 110, 220⟩

/-- A detection at 0.40 confidence, below the threshold. -/
def sampleDetLow : Det := ⟨1, 2/5, 5, 6, 7, 8⟩

/-- Class names of a sample model. -/
def sampleNames : List String := ["person", "traffic_light"]

/-- A frame on which the model reports one high- and one low-confidence
detection. -/
def sampleFrame : Frame := ⟨7, [sampleDetHigh, sampleDetLow], []⟩

/-- A filesystem holding the input video. -/
def fsIn : FS := [("in.mp4", FileData.source [sampleFrame] 3)]

/-- A base environment: capture opens, one readable frame, ffmpeg absent. -/
def envBase : Env :=
  { modelNames := sampleNames, capOpens := true
    reads := [some sampleFrame, none], totalFrames := 1
    fps := 30, width := 640, height := 480, tempPath := "tmpXYZ.mp4"
    ffmpegExists := false, ffmpegRun := none, ffmpegStderr := "boom"
    unlinkOk := true }

/-- Like `envBase` but the capture fails to open. -/
def envNoOpen : Env := { envBase with capOpens := false }

/-- Like `envBase` but ffmpeg exists and exits with code 0. -/
def envSuccess : Env := { envBase with ffmpegExists := true, ffmpegRun := some 0 }

/-- A sample GUI state with a selected existing file and no run active. -/
def guiStIdle : GuiState :=
  { input_file := "in.mp4", output_file := "./out.mp4", processing := false
    processBtnEnabled := true, openOutputBtnEnabled := false, progress := 0
    status := "Готов к работе" }

/-- A sample GUI state with a run already active. -/
def guiStBusy : GuiState := { guiStIdle with processing := true }

/- ----------------------------------------------------------------
   C8: confidence threshold vs. detected-class list
   ---------------------------------------------------------------- -/

/-- Conclusion of claim C8: the detected-class list has one formatted
entry per reported detection (threshold ignored), while the drawing
operations appended to the frame are exactly the rectangle and label of
each detection whose confidence strictly exceeds 0.5. -/
def c8Prop (names : List String) (fr : Frame) : Prop :=
  (detect_and_draw_esp names fr).2 = fr.dets.map (fmtDet names) ∧
  (detect_and_draw_esp names fr).1.ops = fr.ops ++ fr.dets.flatMap (fun d =>
    if (0.5 : ℚ) < d.conf then
      [Op.rect d.x1 d.y1 d.x2 d.y2 (0, 0, 255) 2,
       Op.text (pyTitle ((names.getD d.cls "").replace "_" " ")) d.x1 (d.y1 - 10)
         0 (0.9 : ℚ) (0, 0, 255) 2]
    else [])

/-- C8: a box and label are drawn only for detections with confidence
strictly above 0.5 (every detection's class name is a key of
`target_classes`), while the returned detected-class list contains every
detection, formatted as the class name with its confidence to two decimal
places. -/
theorem c8_threshold_drawing (names : List String) (fr : Frame)
    (hcls : ∀ d ∈ fr.dets, d.cls < names.length) : c8Prop names fr := by
  constructor
  · rfl
  · show fr.ops ++ fr.dets.flatMap (detectOpsFor names) = _
    rw [detectOps_flatMap names fr.dets hcls]

/-- Witness for C8 at the sample model and frame. -/
theorem c8_threshold_drawing_witness :
    (∀ d ∈ sampleFrame.dets, d.cls < sampleNames.length) ∧
      c8Prop sampleNames sampleFrame :=
  ⟨by decide, c8_threshold_drawing sampleNames sampleFrame (by decide)⟩

/- ----------------------------------------------------------------
   C9: in-place mutation of the frame
   ---------------------------------------------------------------- -/

/-- Conclusion of claim C9 over the frame store: the call returns the
same reference it was given, allocates no new frame object, leaves every
other store cell untouched, and the referenced cell now holds the input
frame with the overlays appended (pixels and detections unchanged). -/
def c9Prop (names : List String) (σ : List Frame) (r : Nat) (fr : Frame) : Prop :=
  (detectAndDrawInPlace names σ r).2.1 = r ∧
  (detectAndDrawInPlace names σ r).1.length = σ.length ∧
  (detectAndDrawInPlace names σ r).1[r]? =
    some { fr with ops := fr.ops ++ fr.dets.flatMap (detectOpsFor names) } ∧
  ∀ j, j ≠ r → (detectAndDrawInPlace names σ r).1[j]? = σ[j]?

/-- C9: `detect_and_draw_esp` draws onto the frame object passed in and
returns that same object, not a copy. -/
theorem c9_in_place (names : List String) (σ : List Frame) (r : Nat) (fr : Frame)
    (h : σ[r]? = some fr) : c9Prop names σ r fr := by
  have hlt : r < σ.length := (List.getElem?_eq_some.mp h).1
  unfold c9Prop detectAndDrawInPlace
  rw [h]
  refine ⟨rfl, List.length_set σ r _, ?_, ?_⟩
  · rw [List.getElem?_set_self hlt]
    rfl
  · intro j hj
    exact List.getElem?_set_ne (Ne.symm hj)

/-- Witness for C9 on a two-frame store. -/
theorem c9_in_place_witness :
    ([sampleFrame, sampleFrame][0]? = some sampleFrame) ∧
      c9Prop sampleNames [sampleFrame, sampleFrame] 0 sampleFrame :=
  ⟨rfl, c9_in_place sampleNames [sampleFrame, sampleFrame] 0 sampleFrame rfl⟩

/- ----------------------------------------------------------------
   C10: at most one processing run at a time
   ---------------------------------------------------------------- -/

/-- Conclusion of claim C10: `start_processing` does not spawn a worker
(and leaves the state unchanged) when the flag is already set or no file
is selected; when it does spawn, the flag was clear and is now set with
the button disabled; `processing_finished` and `processing_error` clear
the flag and re-enable the button. -/
def c10Prop (fs : FS) (st : GuiState) : Prop :=
  (st.processing = true →
    (ESPDetectorGUI.start_processing fs st).1 = st ∧
    GuiEffect.spawnThread ∉ (ESPDetectorGUI.start_processing fs st).2) ∧
  (st.input_file = "" →
    (ESPDetectorGUI.start_processing fs st).1 = st ∧
    GuiEffect.spawnThread ∉ (ESPDetectorGUI.start_processing fs st).2) ∧
  (GuiEffect.spawnThread ∈ (ESPDetectorGUI.start_processing fs st).2 →
    st.processing = false ∧
    (ESPDetectorGUI.start_processing fs st).1.processing = true ∧
    (ESPDetectorGUI.start_processing fs st).1.processBtnEnabled = false) ∧
  (ESPDetectorGUI.processing_finished st).processing = false ∧
  (ESPDetectorGUI.processing_finished st).processBtnEnabled = true ∧
  (ESPDetectorGUI.processing_error st).processing = false ∧
  (ESPDetectorGUI.processing_error st).processBtnEnabled = true

/-- C10: the GUI keeps at most one processing run active at a time. -/
theorem c10_single_run (fs : FS) (st : GuiState) : c10Prop fs st := by
  unfold c10Prop ESPDetectorGUI.start_processing
  by_cases h1 : st.input_file = "" <;>
    by_cases h2 : fileExists fs st.input_file = false <;>
      by_cases h3 : st.processing <;>
        simp [ESPDetectorGUI.processing_finished, ESPDetectorGUI.processing_error,
          h1, h2, h3]

/-- Witness for C10 at a concrete state. -/
theorem c10_single_run_witness : c10Prop fsIn guiStIdle :=
  c10_single_run fsIn guiStIdle

/- ----------------------------------------------------------------
   mainEntry branch lemmas
   ---------------------------------------------------------------- -/

theorem mainEntry_found (env : Env) (fs : FS) (argv : List String)
    (hargs : argv.length = 2)
    (hex : fileExists fs (pyStrip (argv.getD 1 "")) = true) :
    mainEntry env fs argv =
      { fs := (process_video env fs (pyStrip (argv.getD 1 ""))
          (outPathFor (pyStrip (argv.getD 1 "")))).fs
        log := (process_video env fs (pyStrip (argv.getD 1 ""))
          (outPathFor (pyStrip (argv.getD 1 "")))).log
        events := (process_video env fs (pyStrip (argv.getD 1 ""))
          (outPathFor (pyStrip (argv.getD 1 "")))).events
        invoked := some (pyStrip (argv.getD 1 ""),
          outPathFor (pyStrip (argv.getD 1 ""))) } := by
  rw [mainEntry, if_pos hargs]
  show (if fileExists fs (pyStrip (argv.getD 1 "")) = true then _ else _) = _
  rw [if_pos hex]

theorem mainEntry_notfound (env : Env) (fs : FS) (argv : List String)
    (hargs : argv.length = 2)
    (hmiss : fileExists fs (pyStrip (argv.getD 1 "")) = false) :
    mainEntry env fs argv =
      { fs := fs, log := [LogMsg.fileNotFound (pyStrip (argv.getD 1 ""))]
        events := [], invoked := none } := by
  rw [mainEntry, if_pos hargs]
  show (if fileExists fs (pyStrip (argv.getD 1 "")) = true then _ else _) = _
  rw [if_neg (by rw [hmiss]; exact Bool.false_ne_true)]

/- ----------------------------------------------------------------
   C5: missing input file is skipped
   ---------------------------------------------------------------- -/

/-- A GUI state whose selected file is absent from `fsIn`. -/
def guiStMissing : GuiState := { guiStIdle with input_file := "missing.mp4" }

/-- Conclusion of claim C5: the console variant reports the missing file
and returns with the filesystem untouched, no traced events and no
`process_video` invocation; the GUI `start_processing` refuses with an
error dialog and an unchanged state. -/
def c5Prop (env : Env) (fs : FS) (argv : List String) (st : GuiState) : Prop :=
  (mainEntry env fs argv).invoked = none ∧
  (mainEntry env fs argv).fs = fs ∧
  (mainEntry env fs argv).events = [] ∧
  LogMsg.fileNotFound (pyStrip (argv.getD 1 "")) ∈ (mainEntry env fs argv).log ∧
  ESPDetectorGUI.start_processing fs st =
    (st, [GuiEffect.errorDialog ("Файл не найден: " ++ st.input_file)])

/-- C5: when the input file does not exist, the console variant reports a
message and never calls `process_video` (so no output file is created),
and the GUI refuses to start processing. -/
theorem c5_missing_input_skips (env : Env) (fs : FS) (argv : List String)
    (st : GuiState)
    (hargs : argv.length = 2)
    (hmiss : fileExists fs (pyStrip (argv.getD 1 "")) = false)
    (hsel : st.input_file = pyStrip (argv.getD 1 ""))
    (hne : st.input_file ≠ "") :
    c5Prop env fs argv st := by
  have hmiss2 : fileExists fs st.input_file = false := by rw [hsel]; exact hmiss
  unfold c5Prop
  rw [mainEntry_notfound env fs argv hargs hmiss]
  refine ⟨rfl, rfl, rfl, List.mem_singleton_self _, ?_⟩
  rw [ESPDetectorGUI.start_processing, if_neg hne, if_pos hmiss2]

/-- Witness for C5 on a filesystem without the requested file. -/
theorem c5_missing_input_skips_witness :
    (["esp_detector.py", "missing.mp4"] : List String).length = 2 ∧
    fileExists fsIn (pyStrip (["esp_detector.py", "missing.mp4"].getD 1 "")) = false ∧
    guiStMissing.input_file = pyStrip (["esp_detector.py", "missing.mp4"].getD 1 "") ∧
    guiStMissing.input_file ≠ "" ∧
    c5Prop envBase fsIn ["esp_detector.py", "missing.mp4"] guiStMissing :=
  ⟨rfl, rfl, rfl, by decide,
   c5_missing_input_skips envBase fsIn ["esp_detector.py", "missing.mp4"]
     guiStMissing rfl rfl rfl (by decide)⟩

/- ----------------------------------------------------------------
   C3: the output location
   ---------------------------------------------------------------- -/

/-- Conclusion of claim C3: the console run hands `process_video` exactly
the stripped input path and `outPathFor` of it; that output path has
basename `out.mp4` and lives in the input's directory (or `.` when the
input has no directory component); no path other than the temporary file
and this output path is ever touched; and the GUI file picker derives the
same output path. -/
def c3Prop (env : Env) (fs : FS) (argv : List String) : Prop :=
  (mainEntry env fs argv).invoked =
    some (pyStrip (argv.getD 1 ""), outPathFor (pyStrip (argv.getD 1 ""))) ∧
  pyBasename (outPathFor (pyStrip (argv.getD 1 ""))) = "out.mp4" ∧
  pyDirname (outPathFor (pyStrip (argv.getD 1 ""))) =
    videoDirOf (pyStrip (argv.getD 1 "")) ∧
  (∀ q : String, fsGet (mainEntry env fs argv).fs q ≠ fsGet fs q →
    q = env.tempPath ∨ q = outPathFor (pyStrip (argv.getD 1 ""))) ∧
  ∀ st : GuiState, ∀ fn : String, fn ≠ "" →
    (ESPDetectorGUI.browse_file st fn).output_file = outPathFor fn

/-- C3: with exactly one positional argument the output is always
`out.mp4` alongside the input (or in `.`), and no other output location
is produced. -/
theorem c3_output_location (env : Env) (fs : FS) (argv : List String)
    (hargs : argv.length = 2)
    (hex : fileExists fs (pyStrip (argv.getD 1 "")) = true) :
    c3Prop env fs argv := by
  have hfs : (mainEntry env fs argv).fs =
      (process_video env fs (pyStrip (argv.getD 1 ""))
        (outPathFor (pyStrip (argv.getD 1 "")))).fs := by
    rw [mainEntry_found env fs argv hargs hex]
  refine ⟨?_, (outPathFor_parts _).1, (outPathFor_parts _).2, ?_, ?_⟩
  · rw [mainEntry_found env fs argv hargs hex]
  · intro q hq
    by_contra hcon
    push_neg at hcon
    exact hq (hfs ▸
      process_video_writesOnly env fs _ _ q hcon.1 hcon.2)
  · intro st fn hfn
    simp [ESPDetectorGUI.browse_file, hfn]

/-- Witness for C3 at a concrete run. -/
theorem c3_output_location_witness :
    (["esp_detector.py", "in.mp4"] : List String).length = 2 ∧
    fileExists fsIn (pyStrip (["esp_detector.py", "in.mp4"].getD 1 "")) = true ∧
    c3Prop envBase fsIn ["esp_detector.py", "in.mp4"] :=
  ⟨rfl, rfl, c3_output_location envBase fsIn ["esp_detector.py", "in.mp4"] rfl rfl⟩

/- ----------------------------------------------------------------
   C1: output file existence (corrected)
   ---------------------------------------------------------------- -/

/-- Conclusion of claim C1: after the console run the output path holds a
file. -/
def c1Prop (env : Env) (fs : FS) (argv : List String) : Prop :=
  fileExists (mainEntry env fs argv).fs (outPathFor (pyStrip (argv.getD 1 ""))) = true

/-- Counterexample to C1 as stated: the input file exists on disk and
`process_video` runs and returns, yet no output file is produced, because
`cv2.VideoCapture` fails to open the input (an existing file need not be
an openable video) and `process_video` returns early. -/
theorem c1_counterexample :
    fileExists fsIn "in.mp4" = true ∧
    (mainEntry envNoOpen fsIn ["esp_detector.py", "in.mp4"]).invoked =
      some ("in.mp4", outPathFor "in.mp4") ∧
    fileExists (mainEntry envNoOpen fsIn ["esp_detector.py", "in.mp4"]).fs
      (outPathFor "in.mp4") = false :=
  ⟨rfl, rfl, rfl⟩

/-- C1 (amended): when the input exists, the capture opens, and the
temporary path differs from the output path, the console run produces a
file at the output path whether ffmpeg succeeds, fails, raises, or is
absent. -/
theorem c1_output_exists_amended (env : Env) (fs : FS) (argv : List String)
    (hargs : argv.length = 2)
    (hex : fileExists fs (pyStrip (argv.getD 1 "")) = true)
    (hcap : env.capOpens = true)
    (htmp : env.tempPath ≠ outPathFor (pyStrip (argv.getD 1 ""))) :
    c1Prop env fs argv := by
  unfold c1Prop
  have hfs : (mainEntry env fs argv).fs =
      (process_video env fs (pyStrip (argv.getD 1 ""))
        (outPathFor (pyStrip (argv.getD 1 "")))).fs := by
    rw [mainEntry_found env fs argv hargs hex]
  rw [hfs]
  exact process_video_output_exists env fs _ _ hcap htmp

/-- Witness for the amended C1 with ffmpeg absent. -/
theorem c1_output_exists_amended_witness :
    (["esp_detector.py", "in.mp4"] : List String).length = 2 ∧
    fileExists fsIn (pyStrip (["esp_detector.py", "in.mp4"].getD 1 "")) = true ∧
    envBase.capOpens = true ∧
    envBase.tempPath ≠ outPathFor (pyStrip (["esp_detector.py", "in.mp4"].getD 1 "")) ∧
    c1Prop envBase fsIn ["esp_detector.py", "in.mp4"] :=
  ⟨rfl, rfl, rfl, by decide,
   c1_output_exists_amended envBase fsIn ["esp_detector.py", "in.mp4"]
     rfl rfl rfl (by decide)⟩

/- ----------------------------------------------------------------
   Projection helpers for runs that reach the merging stage
   ---------------------------------------------------------------- -/

theorem process_video_fsGet_out (env : Env) (fs : FS) (vp op : String)
    (hcap : env.capOpens = true) (htmp : env.tempPath ≠ op) (X : FileData)
    (hX : (mergeStep env (processedOf env)
        (fsSet fs env.tempPath (FileData.silent (processedOf env))) vp op).1 =
      fsSet (fsSet fs env.tempPath (FileData.silent (processedOf env))) op X) :
    fsGet (process_video env fs vp op).fs op = some X := by
  rw [process_video_open env fs vp op hcap]
  show fsGet (unlinkStep env _) op = some X
  rw [fsGet_unlinkStep_ne env _ op (Ne.symm htmp), hX, fsGet_fsSet_self]

theorem process_video_log_mem (env : Env) (fs : FS) (vp op : String)
    (hcap : env.capOpens = true) (x : LogMsg)
    (hx : x ∈ (mergeStep env (processedOf env)
        (fsSet fs env.tempPath (FileData.silent (processedOf env))) vp op).2.1) :
    x ∈ (process_video env fs vp op).log := by
  rw [process_video_open env fs vp op hcap]
  show x ∈ _ ++ _ ++ _ ++ _ ++ _
  simp only [List.mem_append]
  exact Or.inl (Or.inr hx)

theorem process_video_events_mem (env : Env) (fs : FS) (vp op : String)
    (hcap : env.capOpens = true) (e : Event)
    (he : e ∈ (mergeStep env (processedOf env)
        (fsSet fs env.tempPath (FileData.silent (processedOf env))) vp op).2.2) :
    e ∈ (process_video env fs vp op).events := by
  rw [process_video_open env fs vp op hcap]
  show e ∈ _ ++ _ ++ _
  simp only [List.mem_append]
  exact Or.inl (Or.inr he)

/- ----------------------------------------------------------------
   C2: encoder failure handling and the file-copy fallback
   ---------------------------------------------------------------- -/

/-- Conclusion of claim C2: in a run that reaches the merging stage, a
missing encoder, a non-zero exit and an exception each leave their log
message and put a copy of the silent temporary video at the output path,
and the encoder's own output lands at the output path exactly when the
encoder exists and exits with code zero. -/
def c2Prop (env : Env) (fs : FS) (vp op : String) : Prop :=
  (env.ffmpegExists = false →
    LogMsg.ffmpegNotFound ∈ (process_video env fs vp op).log ∧
    fsGet (process_video env fs vp op).fs op =
      some (FileData.silent (processedOf env))) ∧
  (∀ rc : Int, env.ffmpegExists = true → env.ffmpegRun = some rc → rc ≠ 0 →
    LogMsg.ffmpegError env.ffmpegStderr ∈ (process_video env fs vp op).log ∧
    fsGet (process_video env fs vp op).fs op =
      some (FileData.silent (processedOf env))) ∧
  (env.ffmpegExists = true → env.ffmpegRun = none →
    LogMsg.mergeException ∈ (process_video env fs vp op).log ∧
    LogMsg.savedWithoutAudio ∈ (process_video env fs vp op).log ∧
    fsGet (process_video env fs vp op).fs op =
      some (FileData.silent (processedOf env))) ∧
  (fsGet (process_video env fs vp op).fs op =
      some (FileData.muxed (processedOf env) vp "aac") ↔
    env.ffmpegExists = true ∧ env.ffmpegRun = some 0)

/-- C2: encoder absence, non-zero exit and exceptions are logged and
degrade to copying the silent video; the encoder's output is used only on
exit code zero. -/
theorem c2_encoder_fallback (env : Env) (fs : FS) (vp op : String)
    (hcap : env.capOpens = true) (htmp : env.tempPath ≠ op) :
    c2Prop env fs vp op := by
  have hfs1 : fsGet (fsSet fs env.tempPath (FileData.silent (processedOf env)))
      env.tempPath = some (FileData.silent (processedOf env)) :=
    fsGet_fsSet_self _ _ _
  have hcopy : copy2 (fsSet fs env.tempPath (FileData.silent (processedOf env)))
      env.tempPath op =
      fsSet (fsSet fs env.tempPath (FileData.silent (processedOf env))) op
        (FileData.silent (processedOf env)) :=
    copy2_known _ _ _ _ hfs1
  refine ⟨?_, ?_, ?_, ?_⟩
  · intro hff
    have hm := mergeStep_notfound env (processedOf env)
      (fsSet fs env.tempPath (FileData.silent (processedOf env))) vp op hff
    exact ⟨process_video_log_mem env fs vp op hcap _
        (by rw [hm]; exact List.mem_singleton_self _),
      process_video_fsGet_out env fs vp op hcap htmp _ (by rw [hm]; exact hcopy)⟩
  · intro rc hff hrun hrc
    have hm := mergeStep_fail env (processedOf env)
      (fsSet fs env.tempPath (FileData.silent (processedOf env))) vp op rc hff hrun hrc
    exact ⟨process_video_log_mem env fs vp op hcap _
        (by rw [hm]; exact List.mem_singleton_self _),
      process_video_fsGet_out env fs vp op hcap htmp _ (by rw [hm]; exact hcopy)⟩
  · intro hff hrun
    have hm := mergeStep_exc env (processedOf env)
      (fsSet fs env.tempPath (FileData.silent (processedOf env))) vp op hff hrun
    refine ⟨process_video_log_mem env fs vp op hcap _
        (by rw [hm]; exact List.mem_cons_self _ _), ?_, ?_⟩
    · exact process_video_log_mem env fs vp op hcap _
        (by rw [hm]; exact List.mem_cons_of_mem _ (List.mem_singleton_self _))
    · exact process_video_fsGet_out env fs vp op hcap htmp _ (by rw [hm]; exact hcopy)
  · constructor
    · intro hmux
      by_cases hff : env.ffmpegExists
      · rcases hrun : env.ffmpegRun with _ | rc
        · have hm := mergeStep_exc env (processedOf env)
            (fsSet fs env.tempPath (FileData.silent (processedOf env))) vp op hff hrun
          rw [process_video_fsGet_out env fs vp op hcap htmp _
            (by rw [hm]; exact hcopy)] at hmux
          simp at hmux
        · by_cases hrc : rc = 0
          · subst hrc
            exact ⟨hff, hrun ▸ rfl⟩
          · have hm := mergeStep_fail env (processedOf env)
              (fsSet fs env.tempPath (FileData.silent (processedOf env))) vp op
              rc hff hrun hrc
            rw [process_video_fsGet_out env fs vp op hcap htmp _
              (by rw [hm]; exact hcopy)] at hmux
            simp at hmux
      · have hm := mergeStep_notfound env (processedOf env)
          (fsSet fs env.tempPath (FileData.silent (processedOf env))) vp op
          (by simpa using hff)
        rw [process_video_fsGet_out env fs vp op hcap htmp _
          (by rw [hm]; exact hcopy)] at hmux
        simp at hmux
    · rintro ⟨hff, hrun⟩
      have hm := mergeStep_success env (processedOf env)
        (fsSet fs env.tempPath (FileData.silent (processedOf env))) vp op hff hrun
      exact process_video_fsGet_out env fs vp op hcap htmp _ (by rw [hm])

/-- Witness for C2 with ffmpeg absent (the notfound and only-on-zero
branches are exercised; the remaining branches hold vacuously here). -/
theorem c2_encoder_fallback_witness :
    envBase.capOpens = true ∧ envBase.tempPath ≠ "./out.mp4" ∧
      c2Prop envBase fsIn "in.mp4" "./out.mp4" :=
  ⟨rfl, by decide, c2_encoder_fallback envBase fsIn "in.mp4" "./out.mp4" rfl (by decide)⟩

/- ----------------------------------------------------------------
   C4: what the ffmpeg invocation actually produces (corrected)
   ---------------------------------------------------------------- -/

/-- Counterexample to C4 as stated: the command the code builds passes
`aac`, not `copy`, after `-c:a`, so the original audio stream is
re-encoded — the result is not a re-mux in the sense of the spec's
glossary ("without re-encoding audio"). -/
theorem c4_counterexample :
    argAfterFlag "-c:a" (ffmpegCmd "tmp.mp4" "in.mp4" "./out.mp4") = some "aac" ∧
    ¬ specRemuxCmd (ffmpegCmd "tmp.mp4" "in.mp4" "./out.mp4") := by
  constructor
  · rfl
  · intro h
    unfold specRemuxCmd at h
    exact absurd h (by decide)

/-- Conclusion of the amended C4: a successful encoder run leaves at the
output path one container combining the processed video stream (taken
from the temporary file) with the original input's audio stream
re-encoded to aac, and the encoder was invoked with the code's command
line. -/
def c4Prop (env : Env) (fs : FS) (vp op : String) : Prop :=
  fsGet (process_video env fs vp op).fs op =
    some (FileData.muxed (processedOf env) vp "aac") ∧
  Event.ranEncoder (ffmpegCmd env.tempPath vp op) ∈ (process_video env fs vp op).events

/-- C4 (amended): when the encoder is present and exits zero, the output
combines the re-encoded (processed) video stream with the input's audio
stream in one container, with the audio re-encoded to aac rather than
stream-copied. -/
theorem c4_mux_amended (env : Env) (fs : FS) (vp op : String)
    (hcap : env.capOpens = true) (hff : env.ffmpegExists = true)
    (hrun : env.ffmpegRun = some 0) (htmp : env.tempPath ≠ op) :
    c4Prop env fs vp op := by
  have hm := mergeStep_success env (processedOf env)
    (fsSet fs env.tempPath (FileData.silent (processedOf env))) vp op hff hrun
  exact ⟨process_video_fsGet_out env fs vp op hcap htmp _ (by rw [hm]),
    process_video_events_mem env fs vp op hcap _
      (by rw [hm]; exact List.mem_singleton_self _)⟩

/-- Witness for the amended C4. -/
theorem c4_mux_amended_witness :
    envSuccess.capOpens = true ∧ envSuccess.ffmpegExists = true ∧
    envSuccess.ffmpegRun = some 0 ∧ envSuccess.tempPath ≠ "./out.mp4" ∧
    c4Prop envSuccess fsIn "in.mp4" "./out.mp4" :=
  ⟨rfl, rfl, rfl, by decide,
   c4_mux_amended envSuccess fsIn "in.mp4" "./out.mp4" rfl rfl rfl (by decide)⟩

/- ----------------------------------------------------------------
   C6: the per-frame pipeline
   ---------------------------------------------------------------- -/

/-- Conclusion of claim C6: the traced events start with exactly one
written frame — the processed version — per successfully read frame, in
read order; everything after them (encoder invocation, copies, the
unlink) writes no frame, and any encoder invocation lies in that suffix;
and the read loop consumes exactly the frames before the first failed
read. -/
def c6Prop (env : Env) (fs : FS) (vp op : String) : Prop :=
  (∃ rest : List Event,
    (process_video env fs vp op).events =
      (readFrames env.reads).map
        (fun fr => Event.wroteFrame (processFrame env.modelNames fr)) ++ rest ∧
    (∀ e ∈ rest, ∀ fr : Frame, e ≠ Event.wroteFrame fr) ∧
    (∀ cmd, Event.ranEncoder cmd ∈ (process_video env fs vp op).events →
      Event.ranEncoder cmd ∈ rest)) ∧
  ∀ pre : List Frame, ∀ post : List (Option Frame),
    env.reads = pre.map Option.some ++ Option.none :: post →
    readFrames env.reads = pre

/-- C6: one processed frame is written per successful read, in order; the
loop stops at the first failed read; the encoder runs only after the
loop. -/
theorem c6_frame_pipeline (env : Env) (fs : FS) (vp op : String)
    (hcap : env.capOpens = true) : c6Prop env fs vp op := by
  constructor
  · refine ⟨(mergeStep env (processedOf env)
        (fsSet fs env.tempPath (FileData.silent (processedOf env))) vp op).2.2
        ++ [Event.unlinkAttempt env.unlinkOk], ?_, ?_, ?_⟩
    · rw [process_video_open env fs vp op hcap]
      show (processedOf env).map Event.wroteFrame ++ _ ++ _ = _
      rw [List.append_assoc, processedOf, List.map_map]
      rfl
    · intro e he fr
      rcases List.mem_append.mp he with h1 | h2
      · rcases mergeStep_events_cases env (processedOf env)
            (fsSet fs env.tempPath (FileData.silent (processedOf env))) vp op
            e h1 with ⟨cmd, rfl⟩ | ⟨s, d, rfl⟩ <;> simp
      · simp only [List.mem_singleton] at h2
        subst h2
        simp
    · intro cmd hc
      rw [process_video_open env fs vp op hcap] at hc
      have hc2 : Event.ranEncoder cmd ∈ (processedOf env).map Event.wroteFrame
          ++ ((mergeStep env (processedOf env)
            (fsSet fs env.tempPath (FileData.silent (processedOf env))) vp op).2.2
          ++ [Event.unlinkAttempt env.unlinkOk]) := by
        rw [← List.append_assoc]
        exact hc
      rcases List.mem_append.mp hc2 with h1 | h2
      · rcases List.mem_map.mp h1 with ⟨fr, _, hfr⟩
        cases hfr
      · exact h2
  · intro pre post h
    rw [h, readFrames_stops]

/-- Witness for C6 on a one-frame read sequence. -/
theorem c6_frame_pipeline_witness :
    envBase.capOpens = true ∧ c6Prop envBase fsIn "in.mp4" "./out.mp4" :=
  ⟨rfl, c6_frame_pipeline envBase fsIn "in.mp4" "./out.mp4" rfl⟩

/- ----------------------------------------------------------------
   C7: best-effort deletion of the temporary file
   ---------------------------------------------------------------- -/

/-- Conclusion of claim C7: every run that reaches the merging stage
attempts the unlink (in whichever merge branch was taken); a successful
unlink removes the temporary file, a failed one leaves it in place, and
in either case the error is swallowed and the run still reports
completion. -/
def c7Prop (env : Env) (fs : FS) (vp op : String) : Prop :=
  Event.unlinkAttempt env.unlinkOk ∈ (process_video env fs vp op).events ∧
  (env.unlinkOk = true →
    fsGet (process_video env fs vp op).fs env.tempPath = none) ∧
  (env.unlinkOk = false →
    fileExists (process_video env fs vp op).fs env.tempPath = true) ∧
  LogMsg.done op ∈ (process_video env fs vp op).log

/-- C7: the temporary file is deleted at the end, best-effort, in every
branch, and a deletion error is ignored rather than propagated. -/
theorem c7_temp_cleanup (env : Env) (fs : FS) (vp op : String)
    (hcap : env.capOpens = true) : c7Prop env fs vp op := by
  unfold c7Prop
  rw [process_video_open env fs vp op hcap]
  refine ⟨?_, ?_, ?_, ?_⟩
  · show Event.unlinkAttempt env.unlinkOk ∈ _ ++ _ ++ [Event.unlinkAttempt env.unlinkOk]
    simp
  · intro hu
    exact fsGet_unlinkStep_temp env _ hu
  · intro hu
    show fileExists (unlinkStep env _) env.tempPath = true
    rw [unlinkStep, if_neg (by rw [hu]; exact Bool.false_ne_true)]
    exact mergeStep_temp_isSome env (processedOf env)
      (fsSet fs env.tempPath (FileData.silent (processedOf env))) vp op
      (by rw [fsGet_fsSet_self]; rfl)
  · show LogMsg.done op ∈ _ ++ _ ++ _ ++ _ ++ [LogMsg.done op]
    simp

/-- Witness for C7 with a succeeding unlink. -/
theorem c7_temp_cleanup_witness :
    envBase.capOpens = true ∧ c7Prop envBase fsIn "in.mp4" "./out.mp4" :=
  ⟨rfl, c7_temp_cleanup envBase fsIn "in.mp4" "./out.mp4" rfl⟩
